import Mathlib

/-!
Verification of the deglynifier ingestion pipeline (src/deglynifier.py)
against its natural-language specification.

The Python source is shallowly embedded:
* strings are `String` / `List Char` (lines are modelled without their
  trailing newline, which is equivalent here because every captured group
  is either `.strip()`ped or the regex `.` cannot match the newline),
* `float` timestamps are modelled as `ℚ` (only ordering and `max` matter),
* filesystem paths are lists of path components,
* Python exceptions are an explicit `PyErr` error type in `Except`,
* the archive filesystem touched by the pipeline is an explicit record
  (per-sample directory listings in glob discovery order, per-sample
  summary files, and the appended TOML log).

Whitespace and digits are modelled at ASCII granularity (the sidecar
files and directory names the program handles are ASCII).
-/

/-! ## Small association-list helpers (explicit, decidable) -/

def alookup {α β : Type} [DecidableEq α] : List (α × β) → α → Option β
  | [], _ => none
  | (k, v) :: t, key => if k = key then some v else alookup t key

def setAssoc {α β : Type} [DecidableEq α] : List (α × β) → α → β → List (α × β)
  | [], k, v => [(k, v)]
  | (a, b) :: t, k, v => if a = k then (k, v) :: t else (a, b) :: setAssoc t k v

theorem alookup_setAssoc_self {α β : Type} [DecidableEq α]
    (l : List (α × β)) (k : α) (v : β) : alookup (setAssoc l k v) k = some v := by
  induction l with
  | nil => simp [setAssoc, alookup]
  | cons hd t ih =>
    obtain ⟨a, b⟩ := hd
    by_cases h : a = k
    · simp [setAssoc, h, alookup]
    · simp [setAssoc, h, alookup, ih]

/-! ## Python errors -/

inductive PyErr : Type
  | valueError
  | osError
  | keyError
  | decodeError
deriving DecidableEq

/-! ## Character classes used by the embedded regexes and `int()` -/

/-- ASCII whitespace, as matched by Python's `\s` and stripped by `str.strip`. -/
def isPyWs (c : Char) : Bool :=
  c = ' ' || c = '\t' || c = '\n' || c = '\r' || c = Char.ofNat 11 || c = Char.ofNat 12

/-- The character class `[:-]` of the sidecar regexes. -/
def isColonDash (c : Char) : Bool := c = ':' || c = '-'

/-- `str.strip()`: remove leading and trailing whitespace. -/
def pyStrip (cs : List Char) : List Char :=
  ((cs.dropWhile isPyWs).reverse.dropWhile isPyWs).reverse

/-! ## Python `int(str)` (deglynifier.py line 311: `int(nmr_exp.name)`)

Grammar accepted by `int`: optional surrounding whitespace, an optional
sign, then digits where single underscores may separate digit pairs.
Any other input raises `ValueError`. -/

def digitVal (c : Char) : Nat := c.toNat - '0'.toNat

/-- Digits after the first one; a single `_` is allowed between digits. -/
def digRest : Nat → List Char → Option Nat
  | acc, [] => some acc
  | acc, '_' :: c :: t =>
    if c.isDigit then digRest (acc * 10 + digitVal c) t else none
  | _, ['_'] => none
  | acc, c :: t =>
    if c.isDigit then digRest (acc * 10 + digitVal c) t else none

def digitPart : List Char → Option Nat
  | [] => none
  | c :: t => if c.isDigit then digRest (digitVal c) t else none

/-- Python `int(s)`; `none` models a raised `ValueError`. -/
def pyInt? (s : List Char) : Option Int :=
  let t := pyStrip s
  match t with
  | '+' :: r => (digitPart r).map Int.ofNat
  | '-' :: r => (digitPart r).map (fun n => -(n : Int))
  | r => (digitPart r).map Int.ofNat

/-! ## Slot planning (deglynifier.py lines 308-313)

```
expno = 10
for nmr_exp in (outdir / nmr_sample).glob("*"):
    if nmr_exp.is_dir():
        expno = int(nmr_exp.name) + 10
```

`FSEntry` is one entry of `archiveRoot/sampleId` in glob discovery order
(pathlib's glob enumerates in arbitrary `os.scandir` order). -/

structure FSEntry : Type where
  name : String
  isDir : Bool
deriving DecidableEq

/-- The source's slot loop: the accumulator is overwritten by
`int(name) + 10` at every directory entry; a non-numeric directory name
raises `ValueError`. Invoked with initial accumulator `10`. -/
def computeExpno : Int → List FSEntry → Except PyErr Int
  | expno, [] => .ok expno
  | expno, e :: rest =>
    if e.isDir then
      match pyInt? e.name.toList with
      | some n => computeExpno (n + 10) rest
      | none => .error .valueError
    else computeExpno expno rest

/-- Modelled from the spec (§4.2): the planner "lists existing numeric
subdirectories under archiveRoot/sampleId, takes the maximum, and assigns
max + 10 (or 10 if none exist)". Stated for comparison with the
source-derived `computeExpno`. -/
def planSlot_spec (entries : List FSEntry) : Int :=
  let nums := entries.filterMap (fun e => if e.isDir then pyInt? e.name.toList else none)
  match nums with
  | [] => 10
  | h :: t => (t.foldl max h) + 10

/-! ## Sanitizer (deglynifier.py lines 22-37)

```
translation_table = str.maketrans("/$:?|'\\", "_______")
return string.translate(translation_table)
```

The two characters written `Char.ofNat 39` and `Char.ofNat 92` are the
apostrophe and the backslash. -/

def transTable : List (Char × Char) :=
  [('/', '_'), ('$', '_'), (':', '_'), ('?', '_'), ('|', '_'),
   (Char.ofNat 39, '_'), (Char.ofNat 92, '_')]

def illegalChars : List Char := transTable.map (fun p => p.1)

/-- `str.translate`: map each character through the table, leaving
unmapped characters unchanged. -/
def transChar (c : Char) : Char := (alookup transTable c).getD c

def strip_illegal_characters (s : String) : String :=
  String.mk (s.toList.map transChar)

/-! ## Sample-name extraction (deglynifier.py lines 192-249)

The `orig` sidecar is scanned line by line.  First regex:
`re.search(r"Sample ID\s*[:-]{0,2}(.*)", line)` — leftmost occurrence of
the literal `Sample ID`, maximal run of whitespace, up to two `[:-]`
characters, and the greedy group takes the rest of the line.  Because
the part after the literal can always match (possibly emptily), the
first occurrence of the literal always yields the match. -/

/-- Consume `\s*[:-]{0,2}` greedily and return the capture `(.*)`. -/
def afterMarker (cs : List Char) : List Char :=
  match cs.dropWhile isPyWs with
  | [] => []
  | [a] => if isColonDash a then [] else [a]
  | a :: b :: t =>
    if isColonDash a then (if isColonDash b then t else b :: t)
    else a :: b :: t

/-- `re.search` for `Sample ID\s*[:-]{0,2}(.*)`: scan start positions
left to right; at the first occurrence of the literal the rest always
matches.  Returns group 1 (un-stripped), or `none` when the line has no
`Sample ID`. -/
def searchSampleIDFrom : List Char → Option (List Char)
  | [] => none
  | c :: rest =>
    if ("Sample ID".toList).isPrefixOf (c :: rest)
    then some (afterMarker ((c :: rest).drop 9))
    else searchSampleIDFrom rest

/-- Does `cs` start with `\s*` then the literal `Sample ID`?  This is the
tail `:\s*Sample ID` of the Name regex, checked after a candidate colon. -/
def wsThenSampleID (cs : List Char) : Bool :=
  ("Sample ID".toList).isPrefixOf (cs.dropWhile isPyWs)

/-- Greedy `(.*)` with backtracking, then `:\s*Sample ID`: the capture
runs up to the LAST colon that is followed by `\s*Sample ID`.  Returns
the capture, or `none` when no such colon exists. -/
def lastColonSplit : List Char → Option (List Char)
  | [] => none
  | c :: t =>
    match lastColonSplit t with
    | some p => some (c :: p)
    | none => if c = ':' ∧ wsThenSampleID t then some [] else none

/-- Matching of `\s*[:-]{0,2}(.*):\s*Sample ID` immediately after a
`Name` literal: `\s*` is maximal (backtracking into the whitespace run
can never add a colon candidate), then the bounded class backtracks from
its greedy length down to zero. -/
def nameMatchAfter (rest : List Char) : Option (List Char) :=
  let w := rest.dropWhile isPyWs
  let n : Nat :=
    match w with
    | [] => 0
    | [a] => if isColonDash a then 1 else 0
    | a :: b :: _ =>
      if isColonDash a then (if isColonDash b then 2 else 1) else 0
  match (if n ≥ 2 then lastColonSplit (w.drop 2) else none) with
  | some g => some g
  | none =>
    match (if n ≥ 1 then lastColonSplit (w.drop 1) else none) with
    | some g => some g
    | none => lastColonSplit w

/-- `re.search` for `Name\s*[:-]{0,2}(.*):\s*Sample ID`: try each
occurrence of the literal `Name` left to right. -/
def searchNameFrom : List Char → Option (List Char)
  | [] => none
  | c :: rest =>
    if ("Name".toList).isPrefixOf (c :: rest) then
      match nameMatchAfter ((c :: rest).drop 4) with
      | some g => some g
      | none => searchNameFrom rest
    else searchNameFrom rest

/-- The `for line in file` loop of `get_sample_name`, with the running
`sample_id` value as accumulator (initially `"UNKNOWN"`).  A line whose
`Sample ID` group strips to empty and whose `Name` regex does not match
leaves `sample_id = ""` and continues with the next line. -/
def sampleLoop : String → List (List Char) → String
  | acc, [] => acc
  | acc, l :: rest =>
    match searchSampleIDFrom l with
    | none => sampleLoop acc rest
    | some t =>
      let sid := String.mk (pyStrip t)
      if sid ≠ "" then sid
      else
        match searchNameFrom l with
        | none => sampleLoop sid rest
        | some g =>
          let nm := String.mk (pyStrip g)
          if nm ≠ "" then nm else "UNKNOWN"

/-- `MIFNMRFolder.get_sample_name`.  The argument is the content of the
`orig` sidecar as a list of lines (`none` models `OSError` /
`FileNotFoundError` while opening it). -/
def get_sample_name : Option (List (List Char)) → String
  | none => "UNKNOWN"
  | some lines => strip_illegal_characters (sampleLoop "UNKNOWN" lines)

/-! ## Experiment-name extraction (deglynifier.py lines 251-284)

Regex `##\$EXP= <(.*)>`: literal marker, greedy group, closing `>`.
The greedy group with backtracking captures up to the LAST `>` of the
line; an occurrence of the marker with no later `>` fails and the search
moves to the next occurrence. -/

/-- Capture before the last `>`, or `none` if there is no `>`. -/
def lastGtSplit : List Char → Option (List Char)
  | [] => none
  | c :: t =>
    match lastGtSplit t with
    | some p => some (c :: p)
    | none => if c = '>' then some [] else none

def searchExpFrom : List Char → Option (List Char)
  | [] => none
  | c :: rest =>
    if ("##$EXP= <".toList).isPrefixOf (c :: rest) then
      match lastGtSplit ((c :: rest).drop 9) with
      | some g => some g
      | none => searchExpFrom rest
    else searchExpFrom rest

/-- The `for line in file` loop of `get_experiment_name`: return the
first line's capture. -/
def expLoop : List (List Char) → Option (List Char)
  | [] => none
  | l :: rest =>
    match searchExpFrom l with
    | some g => some g
    | none => expLoop rest

/-- `MIFNMRFolder.get_experiment_name`; the argument is the `acqus`
sidecar content (`none` models an I/O failure opening it). -/
def get_experiment_name : Option (List (List Char)) → String
  | none => "UNKNOWN"
  | some lines =>
    match expLoop lines with
    | some g => strip_illegal_characters (String.mk g)
    | none => "UNKNOWN"

/-! ## The MIF NMR pipeline (deglynifier.py lines 286-377)

One source folder, together with the outcome the platform copy primitive
(`shutil.copytree`) would have on it: `copyFails = true` models the copy
raising `OSError`.  `origFile` / `acqusFile` are the sidecar contents. -/

structure NMRSource : Type where
  parentName : String
  name : String
  origFile : Option (List (List Char))
  acqusFile : Option (List (List Char))
  mtime : ℚ
  copyFails : Bool
deriving DecidableEq

structure SummaryBlock : Type where
  expno : Int
  experiment : String
  inpathShort : String
deriving DecidableEq

/-- The record serialised to the watcher TOML log (`to_toml_string`),
with paths kept as component lists. -/
structure MIFRecord : Type where
  nmr_sample : String
  experiment : String
  inpath : List String
  outpath : List String
  timestamp : ℚ
deriving DecidableEq

/-- The part of the archive filesystem the pipeline touches:
`dirs` maps a sample id to the entries of `archiveRoot/sampleId` in glob
discovery order; `summaries` maps a summary-file path to its appended
blocks.  (The summary TOML file is tracked separately from the glob
entries: the source's `is_dir()` filter excludes it from slot planning,
and a slot name — the decimal form of an integer — can never collide
with a `<sample>.toml` file name.) -/
structure MIFArchive : Type where
  dirs : List (String × List FSEntry)
  summaries : List (List String × List SummaryBlock)
deriving DecidableEq

def sampleOf (src : NMRSource) : String := get_sample_name src.origFile

def experimentOf (src : NMRSource) : String := get_experiment_name src.acqusFile

/-- `(outdir / nmr_sample).glob("*")`: the entries of the sample's
archive directory ([] when the directory does not exist). -/
def entriesOf (fs : MIFArchive) (src : NMRSource) : List FSEntry :=
  (alookup fs.dirs (sampleOf src)).getD []

/-- `outpath.exists()` for the planned `outdir / nmr_sample / f"{expno}"`. -/
def slotTaken (fs : MIFArchive) (src : NMRSource) (expno : Int) : Bool :=
  (entriesOf fs src).any (fun e => e.name = toString expno)

/-- `self.outpath.parent / f"{self.nmr_sample}.toml"` with
`outpath = outdir / nmr_sample / f"{expno}"`: the summary file lives at
`outdir / nmr_sample / (nmr_sample ++ ".toml")`. -/
def sumPathOf (od : List String) (src : NMRSource) : List String :=
  od ++ [sampleOf src, sampleOf src ++ ".toml"]

/-- The block `append_expno_info` writes: slot header, experiment name,
and the short `parent/name` form of the source path. -/
def mkBlock (src : NMRSource) (expno : Int) : SummaryBlock :=
  ⟨expno, experimentOf src, src.parentName ++ "/" ++ src.name⟩

def mkRecord (od : List String) (src : NMRSource) (expno : Int) : MIFRecord :=
  ⟨sampleOf src, experimentOf src, [src.parentName, src.name],
   od ++ [sampleOf src, toString expno], src.mtime⟩

/-- `append_expno_info`: append one block to the per-sample summary file. -/
def appendSummary (od : List String) (fs : MIFArchive) (src : NMRSource)
    (expno : Int) : MIFArchive :=
  { fs with
    summaries := setAssoc fs.summaries (sumPathOf od src)
      (((alookup fs.summaries (sumPathOf od src)).getD []) ++ [mkBlock src expno]) }

/-- `copytree(inpath, outpath)`: the new slot directory appears in the
sample's directory listing. -/
def addSlotDir (fs : MIFArchive) (src : NMRSource) (expno : Int) : MIFArchive :=
  { fs with
    dirs := setAssoc fs.dirs (sampleOf src)
      (entriesOf fs src ++ [⟨toString expno, true⟩]) }

/-- `MIFNMRFolder.copy_from_instrument`: extract metadata, plan the slot,
copy unless the planned destination exists, then append the summary
block.  Returns the mutated archive, the record, and whether a copy was
performed; `.error` models an uncaught exception (`ValueError` from slot
planning, `OSError` from the copy). -/
def copy_from_instrument (od : List String) (fs : MIFArchive) (src : NMRSource) :
    Except PyErr (MIFArchive × MIFRecord × Bool) :=
  match computeExpno 10 (entriesOf fs src) with
  | .error e => .error e
  | .ok expno =>
    if slotTaken fs src expno then
      .ok (appendSummary od fs src expno, mkRecord od src expno, false)
    else if src.copyFails then .error .osError
    else
      .ok (appendSummary od (addSlotDir fs src expno) src expno,
           mkRecord od src expno, true)

/-! ## Watcher processing and the scheduler drain loop
(deglynifier.py lines 504-524 and 734-741) -/

structure ProcState : Type where
  fs : MIFArchive
  log : List MIFRecord
  last_timestamp : ℚ
deriving DecidableEq

/-- `Watcher.process_data`: run the pipeline, then set
`last_timestamp = data_path.stat().st_mtime` (a plain assignment) and
append the record to the TOML log.  An exception from the copy
propagates and leaves the state untouched. -/
def process_data (od : List String) (st : ProcState) (src : NMRSource) :
    Except PyErr ProcState :=
  match copy_from_instrument od st.fs src with
  | .error e => .error e
  | .ok (fs', r, _) => .ok ⟨fs', st.log ++ [r], src.mtime⟩

/-- The scheduler's drain loop (`while not to_process.empty(): ...
watcher.process_data(...)`).  There is no per-item exception handler:
the first failure propagates out of the loop (the surrounding `try`
catches only `KeyboardInterrupt`), leaving the remaining queue items
unprocessed.  Returns the state reached and the escaping error, if any. -/
def drainLoop (od : List String) : ProcState → List NMRSource →
    ProcState × Option PyErr
  | st, [] => (st, none)
  | st, f :: rest =>
    match process_data od st f with
    | .error e => (st, some e)
    | .ok st' => drainLoop od st' rest

/-- Modelled from the spec (§7): "Copy failures are surfaced up to the
scheduler's drain loop, which must skip committing that one item and
continue with the rest of the queue."  Stated for comparison with the
source-derived `drainLoop`. -/
def drainLoop_spec (od : List String) : ProcState → List NMRSource → ProcState
  | st, [] => st
  | st, f :: rest =>
    match process_data od st f with
    | .error _ => drainLoop_spec od st rest
    | .ok st' => drainLoop_spec od st' rest

/-! ## The SimpleFile variant (deglynifier.py lines 92-124)

`outpath = outdir / inpath.name`; the copy is skipped when the
destination exists.  The destination directory is a list of
(name, content) pairs; contents are abstract tokens. -/

structure SimpleSource : Type where
  name : String
  contentId : Nat
  mtime : ℚ
deriving DecidableEq

/-- `SimpleFile.copy_from_instrument`: returns the new destination
listing and whether a copy was performed. -/
def simple_copy_from_instrument (fs : List (String × Nat)) (src : SimpleSource) :
    List (String × Nat) × Bool :=
  if fs.any (fun e => e.1 = src.name) then (fs, false)
  else (fs ++ [(src.name, src.contentId)], true)

/-! ## State-store load (`Watcher.from_toml`, deglynifier.py lines 455-502)

The TOML file either fails to open (`OSError`), fails to parse
(`tomllib.TOMLDecodeError`), or parses to a table; a parsed table may
lack the `watcher` fields (`KeyError`), and each `[[processed]]` block
may lack its `timestamp` key (`KeyError` during `max`).  The caught
exceptions are exactly `KeyError`, `TOMLDecodeError` and `OSError`;
`max()` over an empty sequence raises `ValueError`, which is not caught. -/

structure TomlRecordData : Type where
  timestamp : Option ℚ
deriving DecidableEq

structure TomlData : Type where
  watcherInpath : Option String
  watcherOutpath : Option String
  processed : Option (List TomlRecordData)
deriving DecidableEq

inductive TomlLoadResult : Type
  | ioError
  | decodeError
  | parsed (d : TomlData)
deriving DecidableEq

/-- The state `from_toml` returns: the two roots and `last_timestamp`
(the high-water mark; 0 is the `Watcher.__init__` default). -/
structure WatcherRoots : Type where
  inpath : String
  outpath : String
  last_timestamp : ℚ
deriving DecidableEq

def listMaxQ (h : ℚ) (t : List ℚ) : ℚ := t.foldl max h

/-- `Watcher.from_toml`.  `.error .valueError` models the uncaught
`ValueError` that `max()` raises on a log with zero `[[processed]]`
blocks; every caught exception path returns the fallback state seeded
with the caller-supplied default roots. -/
def from_toml (res : TomlLoadResult)
    (default_inpath default_outpath : String) : Except PyErr WatcherRoots :=
  match res with
  | .ioError => .ok ⟨default_inpath, default_outpath, 0⟩
  | .decodeError => .ok ⟨default_inpath, default_outpath, 0⟩
  | .parsed d =>
    match d.watcherInpath, d.watcherOutpath with
    | some ip, some op =>
      let recs := d.processed.getD []
      if recs.any (fun r => r.timestamp.isNone) then
        .ok ⟨default_inpath, default_outpath, 0⟩
      else
        match recs.filterMap (fun r => r.timestamp) with
        | [] => .error .valueError
        | h :: t => .ok ⟨ip, op, listMaxQ h t⟩
    | _, _ => .ok ⟨default_inpath, default_outpath, 0⟩

/-! ## Catch-up date filtering (deglynifier.py lines 700-721) -/

/-- The filter chain of the catch-up phase, one folder at a time:
skip when `timestamp <= watcher.last_timestamp`, when
`start_date.timestamp() > timestamp`, or when
`end_date.timestamp() < timestamp`; otherwise keep. -/
def keepFolder (last_timestamp startTs endTs ts : ℚ) : Bool :=
  if ts ≤ last_timestamp then false
  else if startTs > ts then false
  else if endTs < ts then false
  else true

deriving instance DecidableEq for Except

/-! ## Shared concrete inputs for witnesses and counterexamples -/

/-- A source folder whose sidecars are unreadable: both extractors fall
back to "UNKNOWN", keeping the examples small. -/
def cexSrc : NMRSource := ⟨"p", "f", none, none, 1, false⟩

def fs0 : MIFArchive := ⟨[], []⟩

def st0 : ProcState := ⟨fs0, [], 0⟩

/-- The archive after the pipeline has processed `cexSrc` once from
`fs0`: slot 10 created, one summary block inside the sample directory. -/
def c4fs1 : MIFArchive :=
  ⟨[("UNKNOWN", [⟨"10", true⟩])],
   [(["out", "UNKNOWN", "UNKNOWN.toml"], [⟨10, "UNKNOWN", "p/f"⟩])]⟩

/-! ## C1: slot planning -/

/-- C1: the claim says the planned slot is `max(existing slots) + 10`
independent of discovery order.  The source's loop instead keeps
`int(name) + 10` of the LAST directory in glob order: for the same slot
set {10, 20} it yields 30 in order `[10, 20]` but 20 in order
`[20, 10]`, while the spec-modelled planner yields 30 in both orders. -/
theorem slot_planning_order_dependent :
    computeExpno 10 [⟨"10", true⟩, ⟨"20", true⟩] = .ok 30 ∧
    computeExpno 10 [⟨"20", true⟩, ⟨"10", true⟩] = .ok 20 ∧
    planSlot_spec [⟨"10", true⟩, ⟨"20", true⟩] = 30 ∧
    planSlot_spec [⟨"20", true⟩, ⟨"10", true⟩] = 30 ∧
    (20 : Int) ≠ 30 :=
  ⟨by decide, by decide, by decide, by decide, by decide⟩

/-! ## C2: state-store load -/

/-- C2: every caught failure (missing file, malformed TOML, missing
`watcher` fields, a record without its `timestamp` key) falls back to
the default-seeded state with high-water mark 0 — but a well-formed log
with ZERO `[[processed]]` blocks (the very file `Watcher.__init__`
creates) makes `max()` raise `ValueError`, which is not among the caught
exceptions and escapes the store boundary. -/
theorem from_toml_fallback_and_empty_log :
    (∀ d1 d2, from_toml .ioError d1 d2 = .ok ⟨d1, d2, 0⟩) ∧
    (∀ d1 d2, from_toml .decodeError d1 d2 = .ok ⟨d1, d2, 0⟩) ∧
    (∀ d1 d2 op pr, from_toml (.parsed ⟨none, op, pr⟩) d1 d2 = .ok ⟨d1, d2, 0⟩) ∧
    (∀ d1 d2 ip pr, from_toml (.parsed ⟨some ip, none, pr⟩) d1 d2 = .ok ⟨d1, d2, 0⟩) ∧
    (∀ d1 d2 ip op recs,
      from_toml (.parsed ⟨some ip, some op, some (⟨none⟩ :: recs)⟩) d1 d2 =
        .ok ⟨d1, d2, 0⟩) ∧
    (∀ d1 d2 ip op,
      from_toml (.parsed ⟨some ip, some op, some []⟩) d1 d2 = .error .valueError) ∧
    (∀ d1 d2 ip op,
      from_toml (.parsed ⟨some ip, some op, none⟩) d1 d2 = .error .valueError) :=
  ⟨fun _ _ => rfl, fun _ _ => rfl, fun _ _ _ _ => rfl, fun _ _ _ _ => rfl,
   fun _ _ _ _ _ => rfl, fun _ _ _ _ => rfl, fun _ _ _ _ => rfl⟩

/-! ## C10: non-numeric archive subdirectories -/

theorem computeExpno_error_of_bad (acc : Int) (entries : List FSEntry)
    (h : ∃ e ∈ entries, e.isDir = true ∧ pyInt? e.name.toList = none) :
    computeExpno acc entries = .error .valueError := by
  induction entries generalizing acc with
  | nil => simp at h
  | cons e rest ih =>
    obtain ⟨x, hx, hdir, hnone⟩ := h
    rcases List.mem_cons.mp hx with rfl | hmem
    · simp [computeExpno, hdir, show pyInt? x.name.data = none from hnone]
    · by_cases hd : e.isDir
      · cases hpi : pyInt? e.name.toList with
        | none => simp [computeExpno, hd, show pyInt? e.name.data = none from hpi]
        | some n =>
          simp only [computeExpno, hd, if_true]
          rw [hpi]
          exact ih _ ⟨x, hmem, hdir, hnone⟩
      · simp only [computeExpno, hd, if_false, Bool.false_eq_true]
        exact ih _ ⟨x, hmem, hdir, hnone⟩

/-- C10: if the sample's archive directory holds any subdirectory whose
name Python's `int()` rejects, slot planning raises `ValueError`, the
exception propagates unhandled through `copy_from_instrument` and
`process_data`, and processing of that folder fails instead of skipping
the entry. -/
theorem nonnumeric_dir_raises (od : List String) (st : ProcState) (src : NMRSource)
    (h : ∃ e ∈ entriesOf st.fs src, e.isDir = true ∧ pyInt? e.name.toList = none) :
    process_data od st src = .error .valueError := by
  have hc := computeExpno_error_of_bad 10 (entriesOf st.fs src) h
  simp [process_data, copy_from_instrument, hc]

def badDirFS : MIFArchive := ⟨[("UNKNOWN", [⟨"data", true⟩])], []⟩

/-- C10 witness: a sample directory with a subdirectory named "data". -/
theorem nonnumeric_dir_raises_witness :
    process_data ["out"] ⟨badDirFS, [], 0⟩ cexSrc = .error .valueError :=
  nonnumeric_dir_raises ["out"] ⟨badDirFS, [], 0⟩ cexSrc
    ⟨⟨"data", true⟩, by decide, by decide, by decide⟩

/-! ## C3: high-water mark -/

def src3 : NMRSource := ⟨"p", "f", none, none, 3, false⟩

def st5 : ProcState := ⟨fs0, [], 5⟩

/-- C3 counterexample: with the mark at 5, successfully processing a
folder with timestamp 3 sets the mark to 3 — not to
`max(5, 3) = 5` as the claim states — so the mark decreases. -/
theorem high_water_mark_decreases :
    (process_data ["out"] st5 src3).map ProcState.last_timestamp = .ok 3 ∧
    max (5 : ℚ) 3 = 5 ∧ ((3 : ℚ) = 5 → False) ∧ (3 : ℚ) < 5 :=
  ⟨rfl, by norm_num, by norm_num, by norm_num⟩

/-- C3 (amended): `process_data` assigns
`last_timestamp = data_path.stat().st_mtime` — a plain assignment, not a
`max` — so after each successful call the mark equals the processed
folder's timestamp, and after a successfully drained queue it equals the
LAST folder's timestamp.  It equals the running maximum only when the
folders arrive in non-decreasing timestamp order, and it decreases
whenever a folder older than the current mark is processed. -/
theorem last_timestamp_assignment :
    (∀ od st src st', process_data od st src = .ok st' →
        st'.last_timestamp = src.mtime) ∧
    (∀ od st srcs stF lastS, drainLoop od st srcs = (stF, none) →
        srcs.getLast? = some lastS → stF.last_timestamp = lastS.mtime) := by
  have h1 : ∀ od st src st', process_data od st src = .ok st' →
      st'.last_timestamp = src.mtime := by
    intro od st src st' h
    cases hc : copy_from_instrument od st.fs src with
    | error e => simp [process_data, hc] at h
    | ok p =>
      obtain ⟨fs', r, b⟩ := p
      simp only [process_data, hc] at h
      cases h
      rfl
  refine ⟨h1, ?_⟩
  intro od st srcs
  induction srcs generalizing st with
  | nil => intro stF lastS _ hlast; simp at hlast
  | cons s rest ih =>
    intro stF lastS h hlast
    cases hp : process_data od st s with
    | error e => simp [drainLoop, hp] at h
    | ok st' =>
      simp only [drainLoop, hp] at h
      cases rest with
      | nil =>
        simp only [drainLoop] at h
        cases h
        simp only [List.getLast?_singleton, Option.some.injEq] at hlast
        subst hlast
        exact h1 od st s stF hp
      | cons r rs =>
        rw [List.getLast?_cons_cons] at hlast
        exact ih st' stF lastS h hlast

/-- C3 witness: processing a folder with timestamp 2 from mark 0. -/
theorem last_timestamp_assignment_witness :
    process_data ["out"] st0 src3 =
      .ok ⟨c4fs1, [mkRecord ["out"] src3 10], 3⟩ ∧
    drainLoop ["out"] st0 [src3] = (⟨c4fs1, [mkRecord ["out"] src3 10], 3⟩, none) ∧
    (⟨c4fs1, [mkRecord ["out"] src3 10], 3⟩ : ProcState).last_timestamp = src3.mtime := by
  refine ⟨rfl, rfl, ?_⟩
  exact last_timestamp_assignment.2 ["out"] st0 [src3]
    ⟨c4fs1, [mkRecord ["out"] src3 10], 3⟩ src3 rfl rfl

/-! ## C5: copy failure -/

/-- C5 (amended): a copy failure leaves the watcher state untouched — no
record is appended, the mark is not advanced, and the folder remains
eligible — but the exception is NOT absorbed by the drain loop: the
surrounding `try` catches only `KeyboardInterrupt`, so the first failure
aborts the drain with the remaining queue items unprocessed, instead of
skipping that one item and continuing. -/
theorem copy_failure_uncommitted :
    (∀ od st src e, copy_from_instrument od st.fs src = .error e →
        process_data od st src = .error e) ∧
    (∀ od st src rest e, process_data od st src = .error e →
        drainLoop od st (src :: rest) = (st, some e)) := by
  constructor
  · intro od st src e h
    simp [process_data, h]
  · intro od st src rest e h
    simp [drainLoop, h]

def badSrc : NMRSource := ⟨"p", "b", none, none, 1, true⟩

def goodSrc : NMRSource := ⟨"p", "g", none, none, 2, false⟩

/-- C5 counterexample: a queue holding a folder whose copy fails and
then a processable folder.  The source's drain loop stops at the failure
— the good folder is never processed and the final log is empty —
whereas the claim's skip-and-continue drain (`drainLoop_spec`) would
commit the good folder's record. -/
theorem drain_loop_aborts_on_copy_failure :
    drainLoop ["out"] st0 [badSrc, goodSrc] = (st0, some .osError) ∧
    (drainLoop ["out"] st0 [badSrc, goodSrc]).1.log = [] ∧
    (drainLoop_spec ["out"] st0 [badSrc, goodSrc]).log =
      [mkRecord ["out"] goodSrc 10] :=
  ⟨rfl, rfl, rfl⟩

/-- C5 witness: the failing folder's error propagates and stops the
drain with the state unchanged. -/
theorem copy_failure_uncommitted_witness :
    process_data ["out"] st0 badSrc = .error .osError ∧
    drainLoop ["out"] st0 [badSrc, goodSrc] = (st0, some .osError) := by
  have h1 : copy_from_instrument ["out"] st0.fs badSrc = .error .osError := rfl
  have h2 := copy_failure_uncommitted.1 ["out"] st0 badSrc .osError h1
  exact ⟨h2, copy_failure_uncommitted.2 ["out"] st0 badSrc [goodSrc] .osError h2⟩

/-! ## C4: idempotency -/

/-- C4 counterexample: running the MIF NMR pipeline twice on the same
source folder performs TWO filesystem copies, not one: the second run
plans a fresh slot (20 instead of the existing 10), finds it absent, and
copies again into a different destination. -/
theorem second_run_copies_again :
    copy_from_instrument ["out"] fs0 cexSrc =
      .ok (c4fs1, mkRecord ["out"] cexSrc 10, true) ∧
    (copy_from_instrument ["out"] c4fs1 cexSrc).map (fun x => x.2.2) = .ok true ∧
    (copy_from_instrument ["out"] c4fs1 cexSrc).map (fun x => x.2.1.outpath) =
      .ok ["out", "UNKNOWN", "20"] ∧
    (mkRecord ["out"] cexSrc 10).outpath = ["out", "UNKNOWN", "10"] :=
  ⟨rfl, rfl, rfl, rfl⟩

/-- C4 (amended): when the PLANNED destination path already exists no
copy is performed and a record, summary block and log entry are still
produced; and for the `SimpleFile` variant — whose planned destination
depends only on the source name — a second run on the same source
performs no copy and leaves the destination identical, so two runs give
exactly one copy.  For `MIFNMRFolder` the planned slot changes between
runs, so a rerun copies again (see the counterexample). -/
theorem existing_destination_skips_copy :
    (∀ od fs src expno, computeExpno 10 (entriesOf fs src) = .ok expno →
        slotTaken fs src expno = true →
        copy_from_instrument od fs src =
          .ok (appendSummary od fs src expno, mkRecord od src expno, false) ∧
        (appendSummary od fs src expno).dirs = fs.dirs ∧
        (∀ lg ts, process_data od ⟨fs, lg, ts⟩ src =
          .ok ⟨appendSummary od fs src expno,
               lg ++ [mkRecord od src expno], src.mtime⟩)) ∧
    (∀ fs src, fs.any (fun e => e.1 = src.name) = false →
        simple_copy_from_instrument fs src =
          (fs ++ [(src.name, src.contentId)], true) ∧
        simple_copy_from_instrument (fs ++ [(src.name, src.contentId)]) src =
          (fs ++ [(src.name, src.contentId)], false)) := by
  constructor
  · intro od fs src expno h1 h2
    have hc : copy_from_instrument od fs src =
        .ok (appendSummary od fs src expno, mkRecord od src expno, false) := by
      simp [copy_from_instrument, h1, h2]
    refine ⟨hc, rfl, fun lg ts => ?_⟩
    simp [process_data, show copy_from_instrument od (⟨fs, lg, ts⟩ : ProcState).fs src =
      .ok (appendSummary od fs src expno, mkRecord od src expno, false) from hc]
  · intro fs src h
    constructor
    · simp [simple_copy_from_instrument, h]
    · simp [simple_copy_from_instrument, List.any_append, h]

/-- A sample directory whose glob order makes the source plan slot 10
while a directory named "10" already exists: the copy is skipped. -/
def takenFS : MIFArchive := ⟨[("UNKNOWN", [⟨"10", true⟩, ⟨"0", true⟩])], []⟩

/-- C4 witness: the skip branch at `takenFS`, and a SimpleFile double
run from an empty destination. -/
theorem existing_destination_skips_copy_witness :
    computeExpno 10 (entriesOf takenFS cexSrc) = .ok 10 ∧
    slotTaken takenFS cexSrc 10 = true ∧
    copy_from_instrument ["out"] takenFS cexSrc =
      .ok (appendSummary ["out"] takenFS cexSrc 10,
           mkRecord ["out"] cexSrc 10, false) ∧
    simple_copy_from_instrument [] ⟨"a", 7, 1⟩ = ([("a", 7)], true) ∧
    simple_copy_from_instrument [("a", 7)] ⟨"a", 7, 1⟩ = ([("a", 7)], false) := by
  have h1 : computeExpno 10 (entriesOf takenFS cexSrc) = .ok 10 := rfl
  have h2 : slotTaken takenFS cexSrc 10 = true := rfl
  have hA := existing_destination_skips_copy.1 ["out"] takenFS cexSrc 10 h1 h2
  have hB := existing_destination_skips_copy.2 [] ⟨"a", 7, 1⟩ rfl
  exact ⟨h1, h2, hA.1, hB.1, hB.2⟩

/-! ## C8: the per-sample summary file -/

/-- C8 counterexample: after a pipeline run the summary block lives at
`archiveRoot/sampleId/sampleId.toml` — INSIDE the sample directory
(`outpath.parent`), not at `archiveRoot/sampleId.toml` directly under
the archive root as the claim states; the root-level path holds
nothing. -/
theorem summary_file_inside_sample_dir :
    copy_from_instrument ["out"] fs0 cexSrc =
      .ok (c4fs1, mkRecord ["out"] cexSrc 10, true) ∧
    alookup c4fs1.summaries ["out", "UNKNOWN.toml"] = none ∧
    alookup c4fs1.summaries ["out", "UNKNOWN", "UNKNOWN.toml"] =
      some [⟨10, "UNKNOWN", "p/f"⟩] :=
  ⟨rfl, rfl, rfl⟩

/-- C8 (amended): every successful pipeline run — whether the copy was
performed or skipped — appends exactly one block, holding the slot
number, the experiment name and the short `parentName/folderName` source
form, to the per-sample summary file at
`destinationRoot/sampleId/sampleId.toml` (inside the sample's archive
directory, one file per sample). -/
theorem summary_append_unconditional
    (od : List String) (fs : MIFArchive) (src : NMRSource)
    (fs' : MIFArchive) (r : MIFRecord) (b : Bool)
    (h : copy_from_instrument od fs src = .ok (fs', r, b)) :
    sumPathOf od src = od ++ [sampleOf src, sampleOf src ++ ".toml"] ∧
    ∃ expno, computeExpno 10 (entriesOf fs src) = .ok expno ∧
      mkBlock src expno =
        ⟨expno, experimentOf src, src.parentName ++ "/" ++ src.name⟩ ∧
      alookup fs'.summaries (sumPathOf od src) =
        some (((alookup fs.summaries (sumPathOf od src)).getD []) ++
          [mkBlock src expno]) := by
  refine ⟨rfl, ?_⟩
  cases hc : computeExpno 10 (entriesOf fs src) with
  | error e => simp [copy_from_instrument, hc] at h
  | ok expno =>
    refine ⟨expno, rfl, rfl, ?_⟩
    by_cases h2 : slotTaken fs src expno
    · simp only [copy_from_instrument, hc, h2, if_true] at h
      cases h
      exact alookup_setAssoc_self _ _ _
    · by_cases h3 : src.copyFails
      · simp [copy_from_instrument, hc, h2, h3] at h
      · simp only [copy_from_instrument, hc, h2, h3, if_false,
          Bool.false_eq_true] at h
        cases h
        exact alookup_setAssoc_self _ _ _

/-- C8 witness: the unconditional append at the concrete first run. -/
theorem summary_append_unconditional_witness :
    sumPathOf ["out"] cexSrc =
      ["out"] ++ [sampleOf cexSrc, sampleOf cexSrc ++ ".toml"] ∧
    ∃ expno, computeExpno 10 (entriesOf fs0 cexSrc) = .ok expno ∧
      mkBlock cexSrc expno =
        ⟨expno, experimentOf cexSrc, cexSrc.parentName ++ "/" ++ cexSrc.name⟩ ∧
      alookup c4fs1.summaries (sumPathOf ["out"] cexSrc) =
        some (((alookup fs0.summaries (sumPathOf ["out"] cexSrc)).getD []) ++
          [mkBlock cexSrc expno]) :=
  summary_append_unconditional ["out"] fs0 cexSrc c4fs1
    (mkRecord ["out"] cexSrc 10) true rfl

/-! ## C6: sample-name fallback -/

theorem sampleLoop_of_none (acc : String) (ls : List (List Char))
    (h : ∀ x ∈ ls, searchSampleIDFrom x = none) : sampleLoop acc ls = acc := by
  induction ls with
  | nil => rfl
  | cons p ps ih =>
    simp only [sampleLoop, h p (List.mem_cons_self p ps)]
    exact ih (fun x hx => h x (List.mem_cons_of_mem p hx))

theorem sampleLoop_skip (acc : String) (pre rest : List (List Char))
    (h : ∀ x ∈ pre, searchSampleIDFrom x = none) :
    sampleLoop acc (pre ++ rest) = sampleLoop acc rest := by
  induction pre with
  | nil => rfl
  | cons p ps ih =>
    simp only [List.cons_append, sampleLoop, h p (List.mem_cons_self p ps)]
    exact ih (fun x hx => h x (List.mem_cons_of_mem p hx))

/-- C6 counterexample: a sidecar whose only line has a structurally
present but EMPTY `Sample ID` field and no `Name` field at all.  The
claim says the extractor returns the sentinel "UNKNOWN"; the source
instead leaves `sample_id = ""` (assigned before the emptiness test),
keeps scanning, and returns the empty string after the loop. -/
theorem empty_sample_id_without_name_gives_empty :
    get_sample_name (some ["Sample ID :-".toList]) = "" ∧
    (("" : String) = "UNKNOWN" → False) :=
  ⟨by decide, by decide⟩

/-- C6 (amended): on the first line whose `Sample ID` field is present
but strips to empty: if the same line has a `Name` field preceding the
`Sample ID` marker with a non-empty (stripped) value, the extractor
returns its sanitized value; if that field matches but is empty, it
returns "UNKNOWN"; but if the `Name` pattern is ABSENT from the line,
the loop keeps `sample_id = ""` and continues scanning, and when no
later line matches `Sample ID` the extractor returns the empty string —
not the sentinel "UNKNOWN" the claim states. -/
theorem sample_name_fallback (pre rest : List (List Char)) (l t : List Char)
    (hpre : ∀ x ∈ pre, searchSampleIDFrom x = none)
    (hl : searchSampleIDFrom l = some t) (ht : pyStrip t = []) :
    (∀ g, searchNameFrom l = some g → pyStrip g ≠ [] →
        get_sample_name (some (pre ++ l :: rest)) =
          strip_illegal_characters (String.mk (pyStrip g))) ∧
    (∀ g, searchNameFrom l = some g → pyStrip g = [] →
        get_sample_name (some (pre ++ l :: rest)) = "UNKNOWN") ∧
    (searchNameFrom l = none → (∀ x ∈ rest, searchSampleIDFrom x = none) →
        get_sample_name (some (pre ++ l :: rest)) = "") := by
  have hempty : String.mk (pyStrip t) = "" := by rw [ht]
  have hnegt : ¬ (String.mk (pyStrip t) ≠ "") := fun hcon => hcon hempty
  have hbase : get_sample_name (some (pre ++ l :: rest)) =
      strip_illegal_characters (sampleLoop "UNKNOWN" (l :: rest)) := by
    simp only [get_sample_name, sampleLoop_skip "UNKNOWN" pre (l :: rest) hpre]
  refine ⟨?_, ?_, ?_⟩
  · intro g hg hne
    have hpos : String.mk (pyStrip g) ≠ "" := by
      intro hcon
      apply hne
      have h2 := congrArg String.data hcon
      simpa using h2
    rw [hbase]
    simp only [sampleLoop, hl]
    rw [if_neg hnegt]
    simp only [hg]
    rw [if_pos hpos]
  · intro g hg he
    have hneg2 : ¬ (String.mk (pyStrip g) ≠ "") := by
      intro hcon
      apply hcon
      rw [he]
    rw [hbase]
    simp only [sampleLoop, hl]
    rw [if_neg hnegt]
    simp only [hg]
    rw [if_neg hneg2]
    decide
  · intro hn hrest
    rw [hbase]
    simp only [sampleLoop, hl]
    rw [if_neg hnegt]
    simp only [hn]
    rw [sampleLoop_of_none _ rest hrest, ht]
    decide

/-- C6 witness: "Name :-Bob : Sample ID :-" — empty sample id, non-empty
name — yields "Bob". -/
theorem sample_name_fallback_witness :
    searchSampleIDFrom "Name :-Bob : Sample ID :-".toList = some [] ∧
    pyStrip ([] : List Char) = [] ∧
    searchNameFrom "Name :-Bob : Sample ID :-".toList = some "Bob ".toList ∧
    get_sample_name (some ["Name :-Bob : Sample ID :-".toList]) = "Bob" := by
  have h := (sample_name_fallback [] [] "Name :-Bob : Sample ID :-".toList []
    (by intro x hx; cases hx) (by decide) (by decide)).1
    "Bob ".toList (by decide) (by decide)
  refine ⟨by decide, by decide, by decide, ?_⟩
  rw [show (some ["Name :-Bob : Sample ID :-".toList]) =
    (some ([] ++ "Name :-Bob : Sample ID :-".toList :: ([] : List (List Char))))
    from rfl, h]
  decide

/-! ## C7: catch-up date filtering -/

theorem keepFolder_eq_true_iff (hwm startTs endTs ts : ℚ) :
    keepFolder hwm startTs endTs ts = true ↔
      (hwm < ts ∧ startTs ≤ ts ∧ ts ≤ endTs) := by
  unfold keepFolder
  split_ifs with h1 h2 h3
  · simp only [Bool.false_eq_true, false_iff]
    intro hc
    exact absurd hc.1 (not_lt.mpr h1)
  · simp only [Bool.false_eq_true, false_iff]
    intro hc
    exact absurd hc.2.1 (not_le.mpr h2)
  · simp only [Bool.false_eq_true, false_iff]
    intro hc
    exact absurd hc.2.2 (not_le.mpr h3)
  · simp only [true_iff]
    exact ⟨not_le.mp h1, not_lt.mp h2, not_lt.mp h3⟩

/-- C7: the catch-up filter keeps a folder iff its timestamp is strictly
above the high-water mark, at least the start timestamp and at most the
end timestamp; in particular a folder exactly at the end-of-day boundary
timestamp (the normalised 23:59:59 `endDate`) is kept, and folders
before `startDate` or after `endDate` are dropped. -/
theorem catchup_filter_iff :
    (∀ hwm startTs endTs ts : ℚ,
        keepFolder hwm startTs endTs ts = true ↔
          (hwm < ts ∧ startTs ≤ ts ∧ ts ≤ endTs)) ∧
    (∀ hwm startTs endTs : ℚ, hwm < endTs → startTs ≤ endTs →
        keepFolder hwm startTs endTs endTs = true) :=
  ⟨keepFolder_eq_true_iff,
   fun hwm s e h1 h2 => (keepFolder_eq_true_iff hwm s e e).mpr ⟨h1, h2, le_refl e⟩⟩

/-- C7 witness: mark 0, window [1, 2]: a folder exactly at the end
boundary 2 is kept; a folder at timestamp 3 (after the end) is not. -/
theorem catchup_filter_iff_witness :
    ((0 : ℚ) < 2 ∧ (1 : ℚ) ≤ 2) ∧ keepFolder 0 1 2 2 = true ∧
    keepFolder 0 1 2 3 = false := by
  refine ⟨⟨by norm_num, by norm_num⟩,
    catchup_filter_iff.2 0 1 2 (by norm_num) (by norm_num), ?_⟩
  have h : ¬ (keepFolder 0 1 2 3 = true) := by
    rw [keepFolder_eq_true_iff]
    norm_num
  simpa using h

/-! ## C9: sanitization of extracted identifiers -/

theorem alookup_eq_some_mem {α β : Type} [DecidableEq α]
    (l : List (α × β)) (k : α) (v : β) (h : alookup l k = some v) :
    k ∈ l.map Prod.fst := by
  induction l with
  | nil => simp [alookup] at h
  | cons hd t ih =>
    obtain ⟨a, b⟩ := hd
    by_cases ha : a = k
    · simp [ha]
    · simp only [alookup, ha, if_false] at h
      simp [ih h]

theorem transChar_of_not_illegal (c : Char) (h : c ∉ illegalChars) :
    transChar c = c := by
  unfold transChar
  cases hl : alookup transTable c with
  | none => rfl
  | some v => exact absurd (alookup_eq_some_mem transTable c v hl) h

theorem strip_output_not_illegal (s : String) (c : Char)
    (h : c ∈ (strip_illegal_characters s).toList) : c ∉ illegalChars := by
  have hl : (strip_illegal_characters s).toList = s.toList.map transChar := rfl
  rw [hl] at h
  obtain ⟨d, _, rfl⟩ := List.mem_map.mp h
  by_cases hd : d ∈ illegalChars
  · have : transChar d = '_' := by
      have hall : ∀ x ∈ illegalChars, transChar x = '_' := by decide
      exact hall d hd
    rw [this]
    decide
  · rw [transChar_of_not_illegal d hd]
    exact hd

/-- C9: the sanitizer translates exactly the seven path-illegal
characters / $ : ? | ' \ to underscores and leaves every other
character unchanged, and both metadata extractors return only sanitized
strings (no illegal character survives into sample ids or experiment
names, hence into the destination paths, summary blocks and log records
built from them). -/
theorem sanitizer_translates_illegal :
    (∀ c, c ∈ illegalChars → transChar c = '_') ∧
    (∀ c, c ∉ illegalChars → transChar c = c) ∧
    (∀ s : String, (strip_illegal_characters s).toList = s.toList.map transChar) ∧
    (∀ f c, c ∈ (get_sample_name f).toList → c ∉ illegalChars) ∧
    (∀ f c, c ∈ (get_experiment_name f).toList → c ∉ illegalChars) := by
  refine ⟨by decide, transChar_of_not_illegal, fun _ => rfl, ?_, ?_⟩
  · intro f c hc
    cases f with
    | none =>
      have hall : ∀ x ∈ "UNKNOWN".toList, x ∉ illegalChars := by decide
      exact hall c hc
    | some lines => exact strip_output_not_illegal _ c hc
  · intro f c hc
    cases f with
    | none =>
      have hall : ∀ x ∈ "UNKNOWN".toList, x ∉ illegalChars := by decide
      exact hall c hc
    | some lines =>
      simp only [get_experiment_name] at hc
      cases he : expLoop lines with
      | some g =>
        rw [he] at hc
        exact strip_output_not_illegal _ c hc
      | none =>
        rw [he] at hc
        have hall : ∀ x ∈ "UNKNOWN".toList, x ∉ illegalChars := by decide
        exact hall c hc

/-- C9 witness: '/' is translated to '_', 'a' is untouched, and the
extractor output on a sidecar with an illegal character is sanitized. -/
theorem sanitizer_translates_illegal_witness :
    transChar '/' = '_' ∧ transChar 'a' = 'a' ∧
    ('K' ∈ (get_sample_name none).toList ∧ 'K' ∉ illegalChars) ∧
    get_sample_name (some ["Sample ID :-AB/CD".toList]) = "AB_CD" :=
  ⟨sanitizer_translates_illegal.1 '/' (by decide),
   sanitizer_translates_illegal.2.1 'a' (by decide),
   ⟨by decide, sanitizer_translates_illegal.2.2.2.1 none 'K' (by decide)⟩,
   by decide⟩
